import Mathlib

/-!
Shallow embedding of the `sam-19/calculator-component` repository
(`src/BasicCalculator.ts` and `src/mathjs-worker.ts`) and proofs about the
claims of its specification.

The component's mutable fields become a `CalcState` record; every private
method that mutates `this` becomes a function `CalcState → CalcState`
(returning posted worker messages where the source calls `postMessage`).
JavaScript floating-point numbers appear only through the strings they are
rendered to (`toString`, `toPrecision`) and their sign, so a JS number is
embedded as the record `JSNumber` of exactly those renderings.
-/

namespace Calc

/-- Kind of an expression node (`NodeType` in `BasicCalculator.ts`). -/
inductive NodeType
  | function
  | modifier
  | number
  | operator
  | symbol
deriving DecidableEq, Repr

/-- A single node of a mathematical expression (`ExpressionNode` in the source):
`display` is the user-facing text, `element` the mathjs-facing text. -/
structure ExpressionNode where
  display : String
  element : String
  type : NodeType
deriving DecidableEq, Repr

/-- Embedding of a JavaScript number through the renderings the component
actually reads from it: `str` is `String(n)` / `n.toString()`, `precN` is
`n.toPrecision(N)` (the component only uses precisions 6, 9 and 12),
`negPrec6` is `(-n).toPrecision(6)`, and `neg` decides `n < 0`. -/
structure JSNumber where
  str : String
  prec6 : String
  prec9 : String
  prec12 : String
  negPrec6 : String
  neg : Bool
deriving DecidableEq, Repr

/-- Properties of a previously evaluated expression (`HistoryEntry` in the source). -/
structure HistoryEntry where
  answer : Option String
  answerImg : Option JSNumber
  answerReal : Option JSNumber
  answerText : String
  error : Option String
  expression : List ExpressionNode
  latex : Option String
  round : Bool
deriving DecidableEq, Repr

/-- Unit of angle measurements (`AngleUnit` in the source). -/
inductive AngleUnit
  | deg
  | rad
deriving DecidableEq, Repr

/-- The mutable properties of the `BasicCalculator` component.
`decimalSeparator` is embedded as a `Char` (the component is only ever
configured with one-character separators; the regex the source builds from it
treats it as a single escaped character). `unclosedParentheses` is an `Int`
because the source computes it as a difference of counts. -/
structure CalcState where
  angleUnit : AngleUnit
  answer : Option String
  answerImg : Option JSNumber
  answerReal : Option JSNumber
  answerText : String
  autoComplete : String
  decimalSeparator : Char
  error : Option String
  expression : List ExpressionNode
  history : List HistoryEntry
  historyText : String
  invTrig : Bool
  latex : Option String
  screenText : String
  thousandSeparator : String
  unclosedParentheses : Int
deriving DecidableEq, Repr

/-- JavaScript truthiness of a `string | null` value: `null` and the empty
string are falsy. -/
def jsTruthy : Option String → Bool
  | none => false
  | some s => s != ""

/-- JavaScript `display || exp` for an optional display text: an absent or
empty `display` falls back to `exp`. -/
def jsDisplayOr (display : Option String) (exp : String) : String :=
  match display with
  | none => exp
  | some d => if d = "" then exp else d

/-- JavaScript template interpolation of a possibly-null number
(`${x}` renders `null` as the string "null"). -/
def jsNumTemplate : Option JSNumber → String
  | none => "null"
  | some n => n.str

/-- Count of the occurrences of a character in a string
(`(text.match(/c/g) || []).length` in the source). -/
def countChar (s : String) (c : Char) : Nat :=
  (s.toList.filter (fun x => x = c)).length

/-- JavaScript `text.replace('.', sep)`: a string-pattern `replace` rewrites
only the first occurrence. -/
def replaceFirstDot (sep : Char) : List Char → List Char
  | [] => []
  | c :: cs => if c = '.' then sep :: cs else c :: replaceFirstDot sep cs

/-- Convert dots in the given text into locale-appropriate decimal separators
(`#convertDecimalSeparators` in the source). -/
def convertDecimalSeparators (dsep : Char) (text : String) : String :=
  String.mk (replaceFirstDot dsep text.toList)

/-- One iteration of the thousand-separator insertion loop of
`#formatNumbers`, over the reversed character list. State: (`decimal`,
`consecDigs`). When `decimal` is set, characters are copied until the decimal
separator is reached; the separator itself then falls through to the
consecutive-digit counter, and after every third consecutive digit the
thousand separator is appended to that digit. -/
def formatStep (dsep : Char) (tsep : String) (st : Bool × Int) (c : Char) :
    (Bool × Int) × String :=
  if st.1 ∧ c ≠ dsep then ((true, st.2), String.mk [c])
  else
    let consec := if c.isDigit then st.2 + 1 else -1
    if consec = 3 then ((false, 0), String.mk [c] ++ tsep)
    else ((false, consec), String.mk [c])

/-- Thousand-separator insertion for one number fragment: the source reverses
the characters, runs the loop above (`decimal` initially records whether the
fragment contains the decimal separator, `consecDigs` starts at -1), then
reverses back and joins. -/
def groupThousands (dsep : Char) (tsep : String) (s : String) : String :=
  let nodes := s.toList.reverse
  let out := nodes.foldl
    (fun (acc : (Bool × Int) × List String) c =>
      let r := formatStep dsep tsep acc.1 c
      (r.1, r.2 :: acc.2))
    ((nodes.contains dsep, -1), [])
  String.join out.2

/-- One number match of the regex `([0-9]+\sep?[0-9]*)` starting at the
digit `c`: greedily take digits, optionally the decimal separator, then more
digits. Returns the matched characters and the rest. -/
def takeNumberMatch (dsep : Char) (c : Char) (rest : List Char) :
    List Char × List Char :=
  let d1 := rest.takeWhile Char.isDigit
  let r1 := rest.dropWhile Char.isDigit
  match r1 with
  | s :: r2 =>
    if s = dsep then
      (c :: (d1 ++ s :: r2.takeWhile Char.isDigit), r2.dropWhile Char.isDigit)
    else (c :: d1, r1)
  | [] => (c :: d1, [])

/-- JavaScript `String.split` on the capturing regex `([0-9]+\sep?[0-9]*)`:
produces the alternating list of non-matching segments (even indices,
possibly empty) and matched number fragments (odd indices). `pend` holds the
pending non-match segment reversed; `fuel` bounds the recursion by the input
length and is never exhausted when initialized to it. -/
def splitNumsAux (dsep : Char) : Nat → List Char → List Char → List String
  | _, pend, [] => [String.mk pend.reverse]
  | 0, pend, cs => [String.mk (pend.reverse ++ cs)]
  | fuel + 1, pend, c :: rest =>
    if c.isDigit then
      let m := takeNumberMatch dsep c rest
      String.mk pend.reverse :: String.mk m.1 :: splitNumsAux dsep fuel [] m.2
    else splitNumsAux dsep fuel (c :: pend) rest

/-- JavaScript split of a string on the number regex, see `splitNumsAux`. -/
def splitNums (dsep : Char) (s : String) : List String :=
  splitNumsAux dsep s.length [] s.toList

/-- Format numbers in the given expression (`#formatNumbers` in the source):
convert decimal separators, split on the number regex, and insert thousand
separators into every part past index 0 that matches the number regex (an
unanchored test, i.e. the part contains a digit). A falsy (empty) thousand
separator disables formatting. -/
def formatNumbers (dsep : Char) (tsep : String) (expression : String) : String :=
  if tsep = "" then expression
  else
    let expParts := splitNums dsep (convertDecimalSeparators dsep expression)
    String.join (expParts.mapIdx (fun i p =>
      if 1 ≤ i ∧ p.toList.any Char.isDigit then groupThousands dsep tsep p
      else p))

/-- Strip of the regex replacement `.replace(/\.0+$/, '')`: remove, at the
leftmost position where it matches, a dot followed only by (one or more)
zeros up to the end of the string. -/
def stripDotZeroAux : List Char → List Char
  | [] => []
  | c :: cs =>
    if c = '.' ∧ cs ≠ [] ∧ cs.all (fun x => x = '0') then []
    else c :: stripDotZeroAux cs

/-- Strip of the regex replacement `.replace(/0+$/, '')`: remove the maximal
run of zeros at the end of the string. -/
def stripTrailingZerosAux : List Char → List Char
  | [] => []
  | c :: cs =>
    if c = '0' ∧ cs.all (fun x => x = '0') then []
    else c :: stripTrailingZerosAux cs

/-- Convert an already-rendered `toPrecision` string to the display form of
`#numToPrecision`: strip all-zero decimals, then strip zeroes from the end of
a decimal (`display.includes('.')` tested on the character list). -/
def numToPrecisionStr (rendered : String) : String :=
  let display := String.mk (stripDotZeroAux rendered.toList)
  if display.toList.contains '.' then
    String.mk (stripTrailingZerosAux display.toList)
  else display

/-- Selection of the rendering `n.toPrecision(p)` stored in a `JSNumber`
(the component only uses precisions 6, 9 and 12). -/
def JSNumber.toPrecision (n : JSNumber) : Nat → String
  | 6 => n.prec6
  | 9 => n.prec9
  | 12 => n.prec12
  | _ => n.str

/-- Convert the given number to the given maximum precision
(`#numToPrecision` in the source). -/
def numToPrecision (n : JSNumber) (precision : Nat) : String :=
  numToPrecisionStr (n.toPrecision precision)

/-- Truthiness of `this.answer` (a `string | null` field). -/
def answerTruthy (s : CalcState) : Bool :=
  jsTruthy s.answer

/-- Getter `#modifiersActive`: with an empty expression, a modifier may be
appended into the currently visible answer when it has no imaginary part;
otherwise the last node must be a number, or a symbol other than `(`. -/
def modifiersActive (s : CalcState) : Bool :=
  match s.expression.getLast? with
  | none => answerTruthy s && s.answerImg.isNone
  | some lastNode =>
    lastNode.type == NodeType.number ||
      (lastNode.type == NodeType.symbol && lastNode.element != "(")

/-- The node types after which an operator may not follow
(`incompatibleTypes` in `#operatorsActive`). -/
def incompatibleTypes : List NodeType :=
  [NodeType.function, NodeType.modifier, NodeType.operator]

/-- Getter `#operatorsActive`: an expression or function cannot start with an
operator (other than the minus sign) and operators cannot repeat. -/
def operatorsActive (s : CalcState) : Bool :=
  answerTruthy s ||
    (match s.expression.getLast? with
     | none => false
     | some lastNode =>
       !(incompatibleTypes.contains lastNode.type) && lastNode.element != "(")

/-- Update the input text display (`#udpateInputDisplay` in the source, the
typo included): recomputes `screenText` from the node displays,
`unclosedParentheses` as the count of `(` minus the count of `)` in
`screenText`, and `autoComplete` as that many `)` when positive. -/
def udpateInputDisplay (s : CalcState) : CalcState :=
  let screenText :=
    formatNumbers s.decimalSeparator s.thousandSeparator
      (String.join (s.expression.map (fun ex => ex.display)))
  let unclosed : Int :=
    (countChar screenText '(' : Int) - (countChar screenText ')' : Int)
  { s with
    screenText := screenText
    unclosedParentheses := unclosed
    autoComplete :=
      if unclosed > 0 then String.mk (List.replicate unclosed.toNat ')')
      else "" }

/-- Update the history text display (`#updateHistoryDisplay` in the source). -/
def updateHistoryDisplay (s : CalcState) : CalcState :=
  match s.history.getLast? with
  | none => { s with historyText := "" }
  | some visibleEntry =>
    { s with historyText :=
        String.join (visibleEntry.expression.map (fun e => e.display)) ++
        (if visibleEntry.expression.length ≠ 0 then
          (if visibleEntry.round then " ≈ " else " = ")
         else "") ++
        (if jsTruthy visibleEntry.error then "error"
         else visibleEntry.answerText) }

/-- Wrap an answer text in parentheses when it contains any character other
than a digit or a dot (the test `text.match(/[^\d.]/)`, used both when
re-injecting a live answer in `#inputNode` and, as `/[^0-9.]/`, in
`#inputPreviousAnswer`). -/
def wrapAnswerText (text : String) : String :=
  if text.toList.any (fun c => !(c.isDigit || c == '.')) then
    "(" ++ text ++ ")"
  else text

/-- Add a new node to the end of the expression node array (`#inputNode` in
the source). The source method calls itself once to re-inject a live answer
before an operator or modifier; the `fuel` argument bounds that recursion
(depth is at most 2, because the re-injected node has kind `number`, which
never recurses). With fuel 0 the function is never reached in the embedding
of the component. -/
def inputNode : Nat → CalcState → String → NodeType → Option String → CalcState
  | 0, s, _, _, _ => s
  | fuel + 1, s, exp, expType, display =>
    if expType = NodeType.modifier ∧ ¬ modifiersActive s then s
    else if expType = NodeType.operator ∧ exp ≠ "-" ∧ ¬ operatorsActive s then s
    else if exp = ")" ∧ s.unclosedParentheses < 1 then s
    else
      let s1 :=
        if answerTruthy s then
          if expType = NodeType.operator ∨
              (expType = NodeType.modifier ∧ s.answerImg = none) then
            let inputAns := wrapAnswerText (s.answer.getD "")
            inputNode fuel s inputAns NodeType.number (some inputAns)
          else
            { s with answer := none, answerReal := none, answerImg := none,
                     answerText := "" }
        else s
      let s2 := if jsTruthy s1.error then { s1 with error := none } else s1
      udpateInputDisplay
        { s2 with expression :=
            s2.expression ++ [⟨jsDisplayOr display exp, exp, expType⟩] }

/-- The public append operation: `#inputNode` with enough fuel for its
self-call. -/
def inputNodeOp (s : CalcState) (exp : String) (expType : NodeType)
    (display : Option String) : CalcState :=
  inputNode 2 s exp expType display

/-- An append passes all three rejection guards of `#inputNode`. -/
def InputAccepted (s : CalcState) (exp : String) (expType : NodeType) : Prop :=
  ¬(expType = NodeType.modifier ∧ ¬ modifiersActive s) ∧
  ¬(expType = NodeType.operator ∧ exp ≠ "-" ∧ ¬ operatorsActive s) ∧
  ¬(exp = ")" ∧ s.unclosedParentheses < 1)

instance (s : CalcState) (exp : String) (expType : NodeType) :
    Decidable (InputAccepted s exp expType) := by
  unfold InputAccepted
  infer_instance

/-- An append passes the two activity-predicate guards of `#inputNode`
(the `)`-specific guard not included). -/
def ActivityOk (s : CalcState) (exp : String) (expType : NodeType) : Prop :=
  ¬(expType = NodeType.modifier ∧ ¬ modifiersActive s) ∧
  ¬(expType = NodeType.operator ∧ exp ≠ "-" ∧ ¬ operatorsActive s)

instance (s : CalcState) (exp : String) (expType : NodeType) :
    Decidable (ActivityOk s exp expType) := by
  unfold ActivityOk
  infer_instance

/-- Delete the last node or the node at the given index (`#deleteNode` in the
source): clear a truthy error; then either clear a truthy answer, pop the
last node (no index), or splice out an in-range index. -/
def deleteNode (s : CalcState) (index : Option Int) : CalcState :=
  let s1 := if jsTruthy s.error then { s with error := none } else s
  let s2 :=
    if answerTruthy s1 then { s1 with answer := none }
    else
      match index with
      | none => { s1 with expression := s1.expression.dropLast }
      | some i =>
        if 0 ≤ i ∧ i < (s1.expression.length : Int) then
          { s1 with expression := s1.expression.eraseIdx i.toNat }
        else s1
  udpateInputDisplay s2

/-- Reset the application state (`#reset` in the source). -/
def reset (s : CalcState) : CalcState :=
  updateHistoryDisplay (udpateInputDisplay
    { s with answer := none, answerReal := none, answerImg := none,
             answerText := "", autoComplete := "", error := none,
             expression := [], history := [], invTrig := false, latex := none,
             unclosedParentheses := 0 })

/-- Clear the input node array, or on a second press the whole state
(`#clearAll` in the source). -/
def clearAll (s : CalcState) : CalcState :=
  if s.expression.length ≠ 0 ∨ answerTruthy s then
    udpateInputDisplay
      { s with error := none, answer := none, answerReal := none,
               answerImg := none, expression := [] }
  else reset s

/-- Toggle between inverted and regular trigonometric functions
(`#toggleTrigFunctions` in the source). -/
def toggleTrigFunctions (s : CalcState) : CalcState :=
  { s with invTrig := !s.invTrig }

/-- A message posted by the component to the mathjs worker. -/
inductive WorkerRequest
  | configure (angleUnit : AngleUnit)
  | evaluate (expression : String) (round : Bool)
deriving DecidableEq, Repr

/-- Toggle the angle unit between degrees and radians (`#toggleAngleUnit` in
the source), returning the new state together with the worker messages
posted. -/
def toggleAngleUnit (s : CalcState) (unit : Option AngleUnit) :
    CalcState × List WorkerRequest :=
  if unit.isSome ∧ some s.angleUnit = unit then (s, [])
  else
    let newUnit :=
      if s.angleUnit = AngleUnit.deg then AngleUnit.rad else AngleUnit.deg
    ({ s with angleUnit := newUnit }, [WorkerRequest.configure newUnit])

/-- Send the current expression for evaluation (`#evaluateExpression` in the
source): a no-op on an empty expression, otherwise it posts the joined
payloads plus the autocomplete suffix. The state is not changed. -/
def evaluateExpression (s : CalcState) (shiftKey : Bool) : List WorkerRequest :=
  if s.expression.length = 0 then []
  else
    [WorkerRequest.evaluate
      (String.join (s.expression.map (fun e => e.element)) ++ s.autoComplete)
      shiftKey]

/-- The raw result carried by a worker response: `null`, a plain number, or a
complex value (an object owning the property `re`). -/
inductive WorkerResult
  | nullRes
  | realNum (v : JSNumber)
  | complexNum (re im : JSNumber)
deriving DecidableEq, Repr

/-- The `data` of a worker response message as the controller reads it.
`resultStr` is `String(message.data.result)`, the stringification used by the
misfire check; `latex` is the optional LaTeX rendering field of the response
shape (`none` models `undefined` — the repository's worker posts its success
responses as `{expression, result}` with no `latex` at all); an absent
`round` reads as `false`. -/
structure WorkerMessage where
  error : Option String
  result : WorkerResult
  resultStr : String
  expression : String
  latex : Option String
  round : Bool
deriving DecidableEq, Repr

/-- The closing-parenthesis node pushed for each unclosed parenthesis when a
response is folded into history. -/
def closeParenNode : ExpressionNode :=
  ⟨")", ")", NodeType.symbol⟩

/-- The closing parentheses appended to the expression recorded in history:
the source loop `for (let i=0; i<this.unclosedParentheses; i++)` runs zero
times when the count is not positive. -/
def closingParentheses (s : CalcState) : List ExpressionNode :=
  List.replicate s.unclosedParentheses.toNat closeParenNode

/-- Common tail of `#handleWorkerResponse` (executed for both the error and
the success branch, but not for a misfire): push a history entry capturing
the auto-closed expression and the current answer/error fields, clear the
expression, and recompute both displays. -/
def finishResponse (s : CalcState) (round : Bool) : CalcState :=
  let fullExpression := s.expression ++ closingParentheses s
  updateHistoryDisplay (udpateInputDisplay
    { s with
      history := s.history ++
        [⟨s.answer, s.answerImg, s.answerReal, s.answerText, s.error,
          fullExpression, s.latex, round⟩]
      expression := [] })

/-- Handle a response from the mathjs worker (`#handleWorkerResponse` in the
source). A truthy `error` clears the answer fields and stores the message (the
error branch never reads `latex`); a result whose stringification equals the
submitted expression is a misfire and is discarded; otherwise the answer
fields, display text and LaTeX string are populated. Two abort paths of the
source are modelled as leaving the remaining statements unexecuted: a `null`
result makes `Object.hasOwn(null, 're')` throw before any mutation, and a
missing `latex` makes `#convertDecimalSeparators(undefined)` throw a
TypeError after `answerReal`/`answerImg`/`answer` are assigned but before
`answerText`, `latex`, the history push and the expression clear. -/
def handleWorkerResponse (s : CalcState) (m : WorkerMessage) : CalcState :=
  if jsTruthy m.error then
    finishResponse
      { s with answer := none, answerReal := none, answerImg := none,
               answerText := "", error := m.error, latex := none }
      m.round
  else if m.resultStr = m.expression then s
  else
    match m.result with
    | WorkerResult.nullRes => s
    | WorkerResult.complexNum re im =>
      let answer := numToPrecision re 6 ++
        (if im.neg then "-" ++ numToPrecisionStr im.negPrec6 ++ "i"
         else "+" ++ numToPrecision im 6 ++ "i")
      match m.latex with
      | none =>
        { s with answerReal := some re, answerImg := some im,
                 answer := some answer }
      | some ltx =>
        let s1 :=
          { s with answerReal := some re, answerImg := some im,
                   answer := some answer,
                   latex := some (convertDecimalSeparators s.decimalSeparator ltx ++
                     (if m.round then " ≈ " else " = ") ++ answer) }
        finishResponse
          { s1 with answerText :=
              formatNumbers s1.decimalSeparator s1.thousandSeparator answer }
          m.round
    | WorkerResult.realNum v =>
      let answer := numToPrecision v 12
      match m.latex with
      | none =>
        { s with answerReal := some v, answerImg := none,
                 answer := some answer }
      | some ltx =>
        let s1 :=
          { s with answerReal := some v, answerImg := none,
                   answer := some answer,
                   latex := some (convertDecimalSeparators s.decimalSeparator ltx ++
                     (if m.round then " ≈ " else " = ") ++ numToPrecision v 9) }
        finishResponse
          { s1 with answerText :=
              formatNumbers s1.decimalSeparator s1.thousandSeparator answer }
          m.round

/-- Input the answer to the previous expression (`#inputPreviousAnswer` in
the source). The guard reads the last history entry, but the literal is
branched on the component's live `answerImg` field and, in the complex
branch, built from the live `answerReal`/`answerImg` fields (template
interpolation, which renders `null` as "null"); only the purely-real branch
reads `lastEntry.answerReal` (optional chaining: a missing value propagates
`undefined` into the final template). -/
def inputPreviousAnswer (s : CalcState) : CalcState :=
  match s.history.getLast? with
  | none => s
  | some lastEntry =>
    if !(jsTruthy lastEntry.answer) then s
    else
      let ansComplex : Option String :=
        match s.answerImg with
        | none => lastEntry.answerReal.map (fun r => r.str)
        | some img =>
          some (jsNumTemplate s.answerReal ++ (if img.neg then "-" else "+") ++
            img.str)
      match ansComplex with
      | some a => inputNodeOp s (wrapAnswerText a) NodeType.number (some "Ans")
      | none => inputNodeOp s "undefined" NodeType.number (some "Ans")

/-- Add a random number to the end of the expression (`#inputRandomNumber` in
the source); the rendered random value `rnd` (`Math.random().toFixed(8)`) is
taken as a parameter. A multiplication operator is inserted first when the
last payload is a single digit/dot character or a closing parenthesis. -/
def inputRandomNumber (s : CalcState) (rnd : String) : CalcState :=
  let needsMulti :=
    match s.expression.getLast? with
    | none => false
    | some lastItem =>
      (match lastItem.element.toList with
       | [c] => c.isDigit || c == '.'
       | _ => false) || lastItem.element == ")"
  let s1 :=
    if needsMulti then inputNodeOp s "*" NodeType.operator (some "×") else s
  inputNodeOp s1 rnd NodeType.number (some rnd)

/-- The component state as constructed, for a given decimal and thousand
separator configuration: the field initializers of `BasicCalculator`. -/
def initState (dsep : Char) (tsep : String) : CalcState :=
  { angleUnit := AngleUnit.deg, answer := none, answerImg := none,
    answerReal := none, answerText := "", autoComplete := "",
    decimalSeparator := dsep, error := none, expression := [], history := [],
    historyText := "", invTrig := false, latex := none, screenText := "",
    thousandSeparator := tsep, unclosedParentheses := 0 }

/-- The "operators active" predicate as the specification words it: a live
Answer exists, or the Expression is non-empty and its last token's kind is
none of Function, Modifier, or Operator and its last token's payload is not
"(". Stated from the spec, to be compared with the source-derived
`operatorsActive`. -/
def operatorsActiveSpec (s : CalcState) : Prop :=
  s.answer ≠ none ∨
    (s.expression ≠ [] ∧ ∃ lastNode, s.expression.getLast? = some lastNode ∧
      lastNode.type ≠ NodeType.function ∧ lastNode.type ≠ NodeType.modifier ∧
      lastNode.type ≠ NodeType.operator ∧ lastNode.element ≠ "(")

/-- Arguments of one public append request. -/
structure AppendCall where
  exp : String
  ty : NodeType
  display : Option String
deriving DecidableEq, Repr

/-- Run one append request. -/
def applyCall (s : CalcState) (c : AppendCall) : CalcState :=
  inputNodeOp s c.exp c.ty c.display

/-- Run a sequence of append requests. -/
def runCalls : CalcState → List AppendCall → CalcState
  | s, [] => s
  | s, c :: cs => runCalls (applyCall s c) cs

/-- Number of append requests of a sequence that pass all rejection guards,
each judged in the state in which it runs. -/
def countAccepted : CalcState → List AppendCall → Nat
  | _, [] => 0
  | s, c :: cs =>
    (if InputAccepted s c.exp c.ty then 1 else 0) +
      countAccepted (applyCall s c) cs

/-- Every append request of a sequence passes its activity predicates, each
judged in the state in which it runs. -/
def AllActivityOk : CalcState → List AppendCall → Prop
  | _, [] => True
  | s, c :: cs => ActivityOk s c.exp c.ty ∧ AllActivityOk (applyCall s c) cs

instance instDecidableAllActivityOk :
    (s : CalcState) → (cs : List AppendCall) → Decidable (AllActivityOk s cs)
  | _, [] => Decidable.isTrue trivial
  | s, c :: cs =>
    haveI : Decidable (AllActivityOk (applyCall s c) cs) :=
      instDecidableAllActivityOk (applyCall s c) cs
    inferInstanceAs (Decidable (_ ∧ _))

/-- One public operation of the input controller, as a step between
component states. Parameters that come from the outside (token requests,
delete indices, worker messages, the rendered random value) are free. -/
inductive Step : CalcState → CalcState → Prop
  | input (s : CalcState) (exp : String) (ty : NodeType) (d : Option String) :
      Step s (inputNodeOp s exp ty d)
  | delete (s : CalcState) (index : Option Int) : Step s (deleteNode s index)
  | clear (s : CalcState) : Step s (clearAll s)
  | trig (s : CalcState) : Step s (toggleTrigFunctions s)
  | angle (s : CalcState) (u : Option AngleUnit) :
      Step s (toggleAngleUnit s u).1
  | prevAnswer (s : CalcState) : Step s (inputPreviousAnswer s)
  | rand (s : CalcState) (rnd : String) : Step s (inputRandomNumber s rnd)
  | response (s : CalcState) (m : WorkerMessage) :
      Step s (handleWorkerResponse s m)

/-- A state is reachable (for a given separator configuration) when some
sequence of public operations leads to it from the freshly constructed
component. -/
def Reachable (dsep : Char) (tsep : String) (s : CalcState) : Prop :=
  Relation.ReflTransGen Step (initState dsep tsep) s

/-- Invariant relating the derived display fields: the unclosed-parenthesis
count is the count of `(` minus the count of `)` in the screen text, and the
autocomplete string is `max 0` that many closing parentheses. -/
def parenInvariant (s : CalcState) : Prop :=
  s.unclosedParentheses =
    (countChar s.screenText '(' : Int) - (countChar s.screenText ')' : Int) ∧
  s.autoComplete = String.mk (List.replicate s.unclosedParentheses.toNat ')')

/-- Concrete state reached by appending the token "1": used as an input for
several concrete checks below. -/
def oneTokenState : CalcState :=
  inputNodeOp (initState '.' " ") "1" NodeType.number none

/-- Concrete reachable state for the parenthesis counter: append "(", "1",
")" and then delete the node at index 0. -/
def c2BadState : CalcState :=
  deleteNode
    (inputNodeOp
      (inputNodeOp
        (inputNodeOp (initState '.' " ") "(" NodeType.symbol none)
        "1" NodeType.number none)
      ")" NodeType.symbol none)
    (some 0)

/-- Concrete worker response signalling an error (the worker's error posts
carry no `latex` field either). -/
def errMsg : WorkerMessage :=
  ⟨some "Syntax error", WorkerResult.nullRes, "null", "1", none, false⟩

/-- Concrete successful worker response exactly as the repository's worker
posts it: the result 5 for the submitted expression "2+3", with no `latex`
field (`self.postMessage({expression, result})` in `mathjs-worker.ts`). -/
def sucMsg : WorkerMessage :=
  ⟨none, WorkerResult.realNum ⟨"5", "5.00000", "5.00000000", "5.00000000000",
    "-5.00000", false⟩, "5", "2+3", none, false⟩

/-- The JS number 3 (as read by the component). -/
def num3 : JSNumber :=
  ⟨"3", "3.00000", "3.00000000", "3.00000000000", "-3.00000", false⟩

/-- The JS number 4 (as read by the component). -/
def num4 : JSNumber :=
  ⟨"4", "4.00000", "4.00000000", "4.00000000000", "-4.00000", false⟩

/-- Concrete history entry for a complex answer 3+4i. -/
def complexEntry : HistoryEntry :=
  ⟨some "3+4i", some num4, some num3, "3+4i", none,
    [⟨"3+4i", "3+4i", NodeType.number⟩], some "3+4i = 3+4i", false⟩

/-- Concrete component state right after the evaluation that produced the
complex answer 3+4i: the history holds `complexEntry` and the live answer
fields mirror it. -/
def complexAnswerState : CalcState :=
  { (initState '.' " ") with
    answer := some "3+4i"
    answerImg := some num4
    answerReal := some num3
    answerText := "3+4i"
    history := [complexEntry] }

/-- Concrete append sequence: "1", then "+", then a ")" that the
parenthesis guard rejects. -/
def witnessCalls : List AppendCall :=
  [⟨"1", NodeType.number, none⟩, ⟨"+", NodeType.operator, none⟩,
   ⟨")", NodeType.symbol, none⟩]

end Calc

namespace Worker

/-- Angle units accepted by the worker configuration message
(`'rad' | 'deg' | 'grad'` in `mathjs-worker.ts`). -/
inductive WAngleUnit
  | deg
  | rad
  | grad
deriving DecidableEq, Repr

/-- Scalar operations on JS numbers used by the worker's angle conversions:
division, multiplication, numeric literals and `Math.PI`. Floating-point
arithmetic is abstracted into the operations of `V`; the conversion
expressions below keep the source's left-to-right association. -/
structure ScalarOps (V : Type) where
  div : V → V → V
  mul : V → V → V
  ofNat : Nat → V
  pi : V

/-- Conversion applied to the input of a direct trigonometric function
(the `fnNumber` built for `fns1` in `setAngleUnit`): convert from the
configured type of angles to radians, `x / 360 * 2 * Math.PI` for degrees
and `x / 400 * 2 * Math.PI` for gradians. -/
def convertInput {V : Type} (ops : ScalarOps V) (angleUnit : WAngleUnit)
    (x : V) : V :=
  match angleUnit with
  | WAngleUnit.deg =>
    ops.mul (ops.mul (ops.div x (ops.ofNat 360)) (ops.ofNat 2)) ops.pi
  | WAngleUnit.grad =>
    ops.mul (ops.mul (ops.div x (ops.ofNat 400)) (ops.ofNat 2)) ops.pi
  | WAngleUnit.rad => x

/-- Conversion applied to the output of an inverse trigonometric function
(the `fnNumber` built for `fns2` in `setAngleUnit`): convert from radians to
the configured type of angles, `result / 2 / Math.PI * 360` for degrees and
`result / 2 / Math.PI * 400` for gradians. -/
def convertOutput {V : Type} (ops : ScalarOps V) (angleUnit : WAngleUnit)
    (result : V) : V :=
  match angleUnit with
  | WAngleUnit.deg =>
    ops.mul (ops.div (ops.div result (ops.ofNat 2)) ops.pi) (ops.ofNat 360)
  | WAngleUnit.grad =>
    ops.mul (ops.div (ops.div result (ops.ofNat 2)) ops.pi) (ops.ofNat 400)
  | WAngleUnit.rad => result

/-- The mathjs namespace seen by the worker: a mapping from function names to
unary numeric functions. The `Array | Matrix` branches of the typed
functions map the same numeric function over a collection and are abstracted
away; `typeof result === 'number'` always holds for values of `V`. -/
def MathNS (V : Type) : Type :=
  String → Option (V → V)

/-- Direct trigonometric function names (`fns1` in the source). -/
def fns1 : List String :=
  ["sin", "cos", "tan", "sec", "cot", "csc"]

/-- Inverse trigonometric function names (`fns2` in the source). -/
def fns2 : List String :=
  ["asin", "acos", "atan", "atan2", "acot", "acsc", "asec"]

/-- Alter the mathjs trigonometric functions to the given angle unit
(`setAngleUnit` in `mathjs-worker.ts`): for every name of `fns1`/`fns2`
found in the saved map `oFns` of original (never wrapped) functions, build a
replacement wrapping the original, and import the replacements into the
current namespace with override; names without a replacement keep their
current binding. -/
def setAngleUnit {V : Type} (ops : ScalarOps V) (oFns : MathNS V)
    (angleUnit : WAngleUnit) (math : MathNS V) : MathNS V :=
  fun name =>
    if name ∈ fns1 then
      match oFns name with
      | some fn => some (fun x => fn (convertInput ops angleUnit x))
      | none => math name
    else if name ∈ fns2 then
      match oFns name with
      | some fn => some (fun x => convertOutput ops angleUnit (fn x))
      | none => math name
    else math name

end Worker

namespace Calc

@[simp]
theorem udpateInputDisplay_expression (s : CalcState) :
    (udpateInputDisplay s).expression = s.expression := rfl

@[simp]
theorem udpateInputDisplay_answer (s : CalcState) :
    (udpateInputDisplay s).answer = s.answer := rfl

@[simp]
theorem udpateInputDisplay_answerReal (s : CalcState) :
    (udpateInputDisplay s).answerReal = s.answerReal := rfl

@[simp]
theorem udpateInputDisplay_answerImg (s : CalcState) :
    (udpateInputDisplay s).answerImg = s.answerImg := rfl

@[simp]
theorem udpateInputDisplay_answerText (s : CalcState) :
    (udpateInputDisplay s).answerText = s.answerText := rfl

@[simp]
theorem udpateInputDisplay_error (s : CalcState) :
    (udpateInputDisplay s).error = s.error := rfl

@[simp]
theorem udpateInputDisplay_history (s : CalcState) :
    (udpateInputDisplay s).history = s.history := rfl

@[simp]
theorem udpateInputDisplay_latex (s : CalcState) :
    (udpateInputDisplay s).latex = s.latex := rfl

/-- The history-text update only rewrites the `historyText` field. -/
theorem updateHistoryDisplay_spec (s : CalcState) :
    ∃ t, updateHistoryDisplay s = { s with historyText := t } := by
  unfold updateHistoryDisplay
  cases s.history.getLast? with
  | none => exact ⟨"", rfl⟩
  | some e => exact ⟨_, rfl⟩

@[simp]
theorem updateHistoryDisplay_expression (s : CalcState) :
    (updateHistoryDisplay s).expression = s.expression := by
  obtain ⟨t, h⟩ := updateHistoryDisplay_spec s
  rw [h]

@[simp]
theorem updateHistoryDisplay_history (s : CalcState) :
    (updateHistoryDisplay s).history = s.history := by
  obtain ⟨t, h⟩ := updateHistoryDisplay_spec s
  rw [h]

@[simp]
theorem updateHistoryDisplay_answer (s : CalcState) :
    (updateHistoryDisplay s).answer = s.answer := by
  obtain ⟨t, h⟩ := updateHistoryDisplay_spec s
  rw [h]

@[simp]
theorem updateHistoryDisplay_answerReal (s : CalcState) :
    (updateHistoryDisplay s).answerReal = s.answerReal := by
  obtain ⟨t, h⟩ := updateHistoryDisplay_spec s
  rw [h]

@[simp]
theorem updateHistoryDisplay_answerImg (s : CalcState) :
    (updateHistoryDisplay s).answerImg = s.answerImg := by
  obtain ⟨t, h⟩ := updateHistoryDisplay_spec s
  rw [h]

@[simp]
theorem updateHistoryDisplay_answerText (s : CalcState) :
    (updateHistoryDisplay s).answerText = s.answerText := by
  obtain ⟨t, h⟩ := updateHistoryDisplay_spec s
  rw [h]

@[simp]
theorem updateHistoryDisplay_error (s : CalcState) :
    (updateHistoryDisplay s).error = s.error := by
  obtain ⟨t, h⟩ := updateHistoryDisplay_spec s
  rw [h]

@[simp]
theorem updateHistoryDisplay_latex (s : CalcState) :
    (updateHistoryDisplay s).latex = s.latex := by
  obtain ⟨t, h⟩ := updateHistoryDisplay_spec s
  rw [h]

@[simp]
theorem updateHistoryDisplay_screenText (s : CalcState) :
    (updateHistoryDisplay s).screenText = s.screenText := by
  obtain ⟨t, h⟩ := updateHistoryDisplay_spec s
  rw [h]

@[simp]
theorem updateHistoryDisplay_unclosedParentheses (s : CalcState) :
    (updateHistoryDisplay s).unclosedParentheses = s.unclosedParentheses := by
  obtain ⟨t, h⟩ := updateHistoryDisplay_spec s
  rw [h]

@[simp]
theorem updateHistoryDisplay_autoComplete (s : CalcState) :
    (updateHistoryDisplay s).autoComplete = s.autoComplete := by
  obtain ⟨t, h⟩ := updateHistoryDisplay_spec s
  rw [h]

@[simp]
theorem finishResponse_history (s : CalcState) (round : Bool) :
    (finishResponse s round).history =
      s.history ++ [⟨s.answer, s.answerImg, s.answerReal, s.answerText,
        s.error, s.expression ++ closingParentheses s, s.latex, round⟩] := by
  unfold finishResponse
  simp

@[simp]
theorem finishResponse_expression (s : CalcState) (round : Bool) :
    (finishResponse s round).expression = [] := by
  unfold finishResponse
  simp

@[simp]
theorem finishResponse_error (s : CalcState) (round : Bool) :
    (finishResponse s round).error = s.error := by
  unfold finishResponse
  simp

@[simp]
theorem finishResponse_answer (s : CalcState) (round : Bool) :
    (finishResponse s round).answer = s.answer := by
  unfold finishResponse
  simp

@[simp]
theorem finishResponse_answerReal (s : CalcState) (round : Bool) :
    (finishResponse s round).answerReal = s.answerReal := by
  unfold finishResponse
  simp

@[simp]
theorem finishResponse_answerImg (s : CalcState) (round : Bool) :
    (finishResponse s round).answerImg = s.answerImg := by
  unfold finishResponse
  simp

@[simp]
theorem finishResponse_answerText (s : CalcState) (round : Bool) :
    (finishResponse s round).answerText = s.answerText := by
  unfold finishResponse
  simp

@[simp]
theorem finishResponse_latex (s : CalcState) (round : Bool) :
    (finishResponse s round).latex = s.latex := by
  unfold finishResponse
  simp

theorem udpateInputDisplay_invariant (s : CalcState) :
    parenInvariant (udpateInputDisplay s) := by
  unfold parenInvariant udpateInputDisplay
  refine ⟨rfl, ?_⟩
  dsimp only
  split
  · rfl
  · next h =>
    rw [Int.toNat_eq_zero.mpr (le_of_not_lt h)]
    rfl

theorem updateHistoryDisplay_invariant (s : CalcState)
    (h : parenInvariant s) : parenInvariant (updateHistoryDisplay s) := by
  unfold parenInvariant at h ⊢
  simpa using h

theorem finishResponse_invariant (s : CalcState) (round : Bool) :
    parenInvariant (finishResponse s round) :=
  updateHistoryDisplay_invariant _ (udpateInputDisplay_invariant _)

theorem inputNode_invariant (fuel : Nat) (s : CalcState) (exp : String)
    (ty : NodeType) (d : Option String) (h : parenInvariant s) :
    parenInvariant (inputNode fuel s exp ty d) := by
  cases fuel with
  | zero => exact h
  | succ n =>
    simp only [inputNode]
    split
    · exact h
    · split
      · exact h
      · split
        · exact h
        · exact udpateInputDisplay_invariant _

theorem deleteNode_invariant (s : CalcState) (index : Option Int) :
    parenInvariant (deleteNode s index) :=
  udpateInputDisplay_invariant _

theorem reset_invariant (s : CalcState) : parenInvariant (reset s) :=
  updateHistoryDisplay_invariant _ (udpateInputDisplay_invariant _)

theorem clearAll_invariant (s : CalcState) : parenInvariant (clearAll s) := by
  unfold clearAll
  split
  · exact udpateInputDisplay_invariant _
  · exact reset_invariant s

theorem inputNodeOp_invariant (s : CalcState) (exp : String) (ty : NodeType)
    (d : Option String) (h : parenInvariant s) :
    parenInvariant (inputNodeOp s exp ty d) :=
  inputNode_invariant 2 s exp ty d h

theorem toggleTrigFunctions_invariant (s : CalcState) (h : parenInvariant s) :
    parenInvariant (toggleTrigFunctions s) := by
  unfold toggleTrigFunctions
  unfold parenInvariant at h ⊢
  exact h

theorem toggleAngleUnit_invariant (s : CalcState) (u : Option AngleUnit)
    (h : parenInvariant s) : parenInvariant (toggleAngleUnit s u).1 := by
  unfold toggleAngleUnit
  unfold parenInvariant at h ⊢
  split
  · exact h
  · exact h

theorem handleWorkerResponse_invariant (s : CalcState) (m : WorkerMessage)
    (h : parenInvariant s) : parenInvariant (handleWorkerResponse s m) := by
  unfold handleWorkerResponse
  split
  · exact finishResponse_invariant _ _
  · split
    · exact h
    · split
      · exact h
      · dsimp only
        split
        · unfold parenInvariant at h ⊢
          exact h
        · exact finishResponse_invariant _ _
      · dsimp only
        split
        · unfold parenInvariant at h ⊢
          exact h
        · exact finishResponse_invariant _ _

theorem inputPreviousAnswer_invariant (s : CalcState) (h : parenInvariant s) :
    parenInvariant (inputPreviousAnswer s) := by
  unfold inputPreviousAnswer
  split
  · exact h
  · split
    · exact h
    · dsimp only
      split
      all_goals exact inputNodeOp_invariant _ _ _ _ h

theorem inputRandomNumber_invariant (s : CalcState) (rnd : String)
    (h : parenInvariant s) : parenInvariant (inputRandomNumber s rnd) := by
  unfold inputRandomNumber
  apply inputNodeOp_invariant
  dsimp only
  split
  · exact inputNodeOp_invariant _ _ _ _ h
  · exact h

theorem step_invariant (s s2 : CalcState) (hstep : Step s s2)
    (h : parenInvariant s) : parenInvariant s2 := by
  cases hstep with
  | input exp ty d => exact inputNodeOp_invariant _ _ _ _ h
  | delete index => exact deleteNode_invariant s index
  | clear => exact clearAll_invariant s
  | trig => exact toggleTrigFunctions_invariant s h
  | angle u => exact toggleAngleUnit_invariant s u h
  | prevAnswer => exact inputPreviousAnswer_invariant s h
  | rand rnd => exact inputRandomNumber_invariant s rnd h
  | response m => exact handleWorkerResponse_invariant s m h

theorem initState_invariant (dsep : Char) (tsep : String) :
    parenInvariant (initState dsep tsep) := by
  exact ⟨rfl, rfl⟩

theorem reachable_invariant (dsep : Char) (tsep : String) (s : CalcState)
    (h : Reachable dsep tsep s) : parenInvariant s := by
  unfold Reachable at h
  induction h with
  | refl => exact initState_invariant dsep tsep
  | tail hs hstep ih => exact step_invariant _ _ hstep ih

@[simp]
theorem jsTruthy_none : jsTruthy none = false := rfl

/-- The input-display update overwrites `screenText`, `unclosedParentheses`
and `autoComplete`, so their previous values are irrelevant. -/
theorem udpateInputDisplay_irrel (X : CalcState) (a : String) (b : Int)
    (c : String) :
    udpateInputDisplay
      { X with screenText := a, unclosedParentheses := b, autoComplete := c } =
      udpateInputDisplay X := rfl

theorem wrapAnswerText_ne_rparen (t : String) : wrapAnswerText t ≠ ")" := by
  unfold wrapAnswerText
  split
  · intro heq
    have hlen := congrArg String.length heq
    simp [String.length_append] at hlen
    exact absurd hlen.1 (by decide)
  · next hany =>
    intro heq
    rw [heq] at hany
    exact absurd (by decide) hany

theorem jsDisplayOr_self (t : String) : jsDisplayOr (some t) t = t := by
  simp [jsDisplayOr]

theorem inputNode_not_accepted (fuel : Nat) (s : CalcState) (exp : String)
    (ty : NodeType) (d : Option String) (h : ¬ InputAccepted s exp ty) :
    inputNode (fuel + 1) s exp ty d = s := by
  by_cases g1 : ty = NodeType.modifier ∧ ¬ modifiersActive s
  · simp only [inputNode]
    rw [if_pos g1]
  by_cases g2 : ty = NodeType.operator ∧ exp ≠ "-" ∧ ¬ operatorsActive s
  · simp only [inputNode]
    rw [if_neg g1, if_pos g2]
  by_cases g3 : exp = ")" ∧ s.unclosedParentheses < 1
  · simp only [inputNode]
    rw [if_neg g1, if_neg g2, if_pos g3]
  · exact absurd ⟨g1, g2, g3⟩ h

theorem inputNodeOp_rejected (s : CalcState) (exp : String) (ty : NodeType)
    (d : Option String) (h : ¬ InputAccepted s exp ty) :
    inputNodeOp s exp ty d = s :=
  inputNode_not_accepted 1 s exp ty d h

theorem inputNode_noAnswer (s : CalcState) (exp : String) (ty : NodeType)
    (d : Option String) (hA : answerTruthy s = false)
    (hAcc : InputAccepted s exp ty) :
    inputNodeOp s exp ty d =
      udpateInputDisplay
        { s with
          error := if jsTruthy s.error then none else s.error
          expression := s.expression ++ [⟨jsDisplayOr d exp, exp, ty⟩] } := by
  obtain ⟨g1, g2, g3⟩ := hAcc
  unfold inputNodeOp
  have hg1 : ¬(ty = NodeType.modifier ∧ modifiersActive s = false) :=
    fun h => g1 ⟨h.1, by simp [h.2]⟩
  have hg2 : ¬(ty = NodeType.operator ∧ ¬exp = "-" ∧
      operatorsActive s = false) :=
    fun h => g2 ⟨h.1, h.2.1, by simp [h.2.2]⟩
  by_cases he : jsTruthy s.error = true
  · simp [inputNode, g1, g2, g3, hA, he]
    rw [if_neg hg1, if_neg hg2]
  · simp [inputNode, g1, g2, g3, hA, he]
    rw [if_neg hg1, if_neg hg2]

theorem inputNode_discard (fuel : Nat) (s : CalcState) (exp : String)
    (ty : NodeType) (d : Option String) (hA : answerTruthy s = true)
    (hAcc : InputAccepted s exp ty)
    (hRe : ¬(ty = NodeType.operator ∨
      (ty = NodeType.modifier ∧ s.answerImg = none))) :
    inputNode (fuel + 1) s exp ty d =
      udpateInputDisplay
        { s with
          answer := none
          answerReal := none
          answerImg := none
          answerText := ""
          error := if jsTruthy s.error then none else s.error
          expression := s.expression ++ [⟨jsDisplayOr d exp, exp, ty⟩] } := by
  obtain ⟨g1, g2, g3⟩ := hAcc
  have hg1 : ¬(ty = NodeType.modifier ∧ modifiersActive s = false) :=
    fun h => g1 ⟨h.1, by simp [h.2]⟩
  have hg2 : ¬(ty = NodeType.operator ∧ ¬exp = "-" ∧
      operatorsActive s = false) :=
    fun h => g2 ⟨h.1, h.2.1, by simp [h.2.2]⟩
  by_cases he : jsTruthy s.error = true
  · simp [inputNode, g1, g2, g3, hA, hRe, he]
    rw [if_neg hg1, if_neg hg2]
  · simp [inputNode, g1, g2, g3, hA, hRe, he]
    rw [if_neg hg1, if_neg hg2]

theorem inputNode_reinject (s : CalcState) (exp : String) (ty : NodeType)
    (d : Option String) (hA : answerTruthy s = true)
    (hAcc : InputAccepted s exp ty)
    (hRe : ty = NodeType.operator ∨
      (ty = NodeType.modifier ∧ s.answerImg = none)) :
    (inputNodeOp s exp ty d).expression =
      s.expression ++
        [⟨wrapAnswerText (s.answer.getD ""),
          wrapAnswerText (s.answer.getD ""), NodeType.number⟩,
         ⟨jsDisplayOr d exp, exp, ty⟩] ∧
    (inputNodeOp s exp ty d).answer = none ∧
    (inputNodeOp s exp ty d).answerReal = none ∧
    (inputNodeOp s exp ty d).answerImg = none ∧
    (inputNodeOp s exp ty d).answerText = "" ∧
    (inputNodeOp s exp ty d).history = s.history := by
  obtain ⟨g1, g2, g3⟩ := hAcc
  unfold inputNodeOp
  rcases hRe with hty | hty2
  · subst hty
    have hop : operatorsActive s = true := by
      unfold operatorsActive
      rw [hA]
      rfl
    by_cases he : jsTruthy s.error = true <;>
      refine ⟨?_, ?_, ?_, ?_, ?_, ?_⟩ <;>
        simp [inputNode, hA, hop, g3, he, wrapAnswerText_ne_rparen,
          jsDisplayOr_self]
  · obtain ⟨hty, him⟩ := hty2
    subst hty
    have hmod : modifiersActive s = true := by
      cases hmo : modifiersActive s
      · exact absurd ⟨rfl, by simp [hmo]⟩ g1
      · rfl
    by_cases he : jsTruthy s.error = true <;>
      refine ⟨?_, ?_, ?_, ?_, ?_, ?_⟩ <;>
        simp [inputNode, hA, hmod, him, g3, he, wrapAnswerText_ne_rparen,
          jsDisplayOr_self]

@[simp]
theorem answerTruthy_set_error (s : CalcState) (e : Option String) :
    answerTruthy { s with error := e } = answerTruthy s := rfl

theorem inputNodeOp_discard (s : CalcState) (exp : String) (ty : NodeType)
    (d : Option String) (hA : answerTruthy s = true)
    (hAcc : InputAccepted s exp ty)
    (hRe : ¬(ty = NodeType.operator ∨
      (ty = NodeType.modifier ∧ s.answerImg = none))) :
    inputNodeOp s exp ty d =
      udpateInputDisplay
        { s with
          answer := none
          answerReal := none
          answerImg := none
          answerText := ""
          error := if jsTruthy s.error then none else s.error
          expression := s.expression ++ [⟨jsDisplayOr d exp, exp, ty⟩] } := by
  unfold inputNodeOp
  show inputNode (1 + 1) s exp ty d = _
  exact inputNode_discard 1 s exp ty d hA hAcc hRe

/-- Claim C2, counterexample: from the freshly constructed component, append
"(", "1", ")" and delete the token at index 0; the resulting state is
reachable by public operations yet its `unclosedParentheses` is negative,
refuting the claimed invariant `unclosedParentheses >= 0` (and with it the
claim that `autoComplete` always has exactly `unclosedParentheses`
characters). -/
theorem claim_C2_counterexample :
    Reachable '.' " " c2BadState ∧ c2BadState.unclosedParentheses < 0 := by
  constructor
  · exact Relation.ReflTransGen.tail
      (Relation.ReflTransGen.tail
        (Relation.ReflTransGen.tail
          (Relation.ReflTransGen.tail Relation.ReflTransGen.refl
            (Step.input _ "(" NodeType.symbol none))
          (Step.input _ "1" NodeType.number none))
        (Step.input _ ")" NodeType.symbol none))
      (Step.delete _ (some 0))
  · decide

/-- Claim C2, amended: in every reachable state, `unclosedParentheses`
equals the count of "(" minus the count of ")" in `screenText` (this
difference can be negative after an indexed delete), and `autoComplete` is
exactly `max 0 unclosedParentheses` repetitions of ")". -/
theorem claim_C2_amended (dsep : Char) (tsep : String) (s : CalcState)
    (h : Reachable dsep tsep s) :
    s.unclosedParentheses =
      (countChar s.screenText '(' : Int) - (countChar s.screenText ')' : Int) ∧
    s.autoComplete =
      String.mk (List.replicate s.unclosedParentheses.toNat ')') :=
  reachable_invariant dsep tsep s h

/-- Claim C2, witness: the amended invariant evaluated in the reachable
state obtained by appending the single token "1". -/
theorem claim_C2_witness :
    oneTokenState.unclosedParentheses =
      (countChar oneTokenState.screenText '(' : Int) -
        (countChar oneTokenState.screenText ')' : Int) ∧
    oneTokenState.autoComplete =
      String.mk (List.replicate oneTokenState.unclosedParentheses.toNat ')') :=
  claim_C2_amended '.' " " oneTokenState
    (Relation.ReflTransGen.tail Relation.ReflTransGen.refl
      (Step.input _ "1" NodeType.number none))

/-- Claim C1, counterexample: on an error response the handler does append a
history entry and does clear the expression, contradicting "leave Expression
untouched" and "do not append to History". -/
theorem claim_C1_counterexample :
    (handleWorkerResponse oneTokenState errMsg).history.length =
      oneTokenState.history.length + 1 ∧
    (handleWorkerResponse oneTokenState errMsg).expression ≠
      oneTokenState.expression := by
  constructor
  · decide
  · decide

/-- Claim C1, amended: for every evaluation response with a truthy error,
the handler sets Error to the message, clears the Answer entirely (answer,
real and imaginary parts, formatted text, LaTeX), appends exactly one
history entry that records the error together with the auto-closed
expression, and clears the Expression. -/
theorem claim_C1_amended (s : CalcState) (m : WorkerMessage)
    (h : jsTruthy m.error = true) :
    (handleWorkerResponse s m).error = m.error ∧
    (handleWorkerResponse s m).answer = none ∧
    (handleWorkerResponse s m).answerReal = none ∧
    (handleWorkerResponse s m).answerImg = none ∧
    (handleWorkerResponse s m).answerText = "" ∧
    (handleWorkerResponse s m).latex = none ∧
    (handleWorkerResponse s m).history =
      s.history ++ [⟨none, none, none, "", m.error,
        s.expression ++ closingParentheses s, none, m.round⟩] ∧
    (handleWorkerResponse s m).expression = [] := by
  unfold handleWorkerResponse
  rw [if_pos h]
  refine ⟨?_, ?_, ?_, ?_, ?_, ?_, ?_, ?_⟩ <;> simp [closingParentheses]

/-- Claim C1, witness: the amended statement evaluated on a concrete state
and error response. -/
theorem claim_C1_witness :
    jsTruthy errMsg.error = true ∧
    ((handleWorkerResponse oneTokenState errMsg).error = errMsg.error ∧
     (handleWorkerResponse oneTokenState errMsg).answer = none ∧
     (handleWorkerResponse oneTokenState errMsg).answerReal = none ∧
     (handleWorkerResponse oneTokenState errMsg).answerImg = none ∧
     (handleWorkerResponse oneTokenState errMsg).answerText = "" ∧
     (handleWorkerResponse oneTokenState errMsg).latex = none ∧
     (handleWorkerResponse oneTokenState errMsg).history =
       oneTokenState.history ++ [⟨none, none, none, "", errMsg.error,
         oneTokenState.expression ++ closingParentheses oneTokenState, none,
         errMsg.round⟩] ∧
     (handleWorkerResponse oneTokenState errMsg).expression = []) :=
  ⟨by decide, claim_C1_amended oneTokenState errMsg (by decide)⟩

/-- Claim C7, code bug: the repository's worker posts its successful
responses as `{expression, result}` with no `latex` field, and on such a
response the handler's success branch throws a TypeError at
`#convertDecimalSeparators(message.data.latex)` — after the answer fields
are assigned (showing the branch was entered: the answer "5" is populated,
so this is neither the error path nor the misfire path) but before
`history.push` and `this.expression = []`. At the concrete successful,
non-misfire response `sucMsg` (result 5 for the submitted expression
"2+3"), History does not grow and the Expression (one token, non-empty)
is not cleared, contrary to the claim. -/
theorem claim_C7_code_bug :
    (handleWorkerResponse oneTokenState sucMsg).history.length =
      oneTokenState.history.length ∧
    (handleWorkerResponse oneTokenState sucMsg).expression =
      oneTokenState.expression ∧
    oneTokenState.expression ≠ [] ∧
    (handleWorkerResponse oneTokenState sucMsg).answer = some "5" ∧
    (handleWorkerResponse oneTokenState sucMsg).latex =
      oneTokenState.latex := by
  refine ⟨?_, ?_, ?_, ?_, ?_⟩ <;> decide

/-- Claim C9: `toggleAngleUnit` with an explicit unit equal to the current
one leaves the state unchanged and posts no message; with a different
explicit unit it flips the unit and posts exactly one reconfiguration
message carrying the new unit. -/
theorem claim_C9 (s : CalcState) (u : AngleUnit) :
    (u = s.angleUnit → toggleAngleUnit s (some u) = (s, [])) ∧
    (u ≠ s.angleUnit →
      toggleAngleUnit s (some u) =
        ({ s with angleUnit := u }, [WorkerRequest.configure u])) := by
  constructor
  · intro hu
    unfold toggleAngleUnit
    rw [if_pos ⟨rfl, by rw [hu]⟩]
  · intro hu
    unfold toggleAngleUnit
    rw [if_neg (fun hc => hu (Option.some.inj hc.2).symm)]
    cases u with
    | deg =>
      cases hsa : s.angleUnit with
      | deg => exact absurd hsa.symm hu
      | rad => simp [hsa]
    | rad =>
      cases hsa : s.angleUnit with
      | deg => simp [hsa]
      | rad => exact absurd hsa.symm hu

/-- Claim C9, witness: toggling the freshly constructed component (unit
"deg") to the explicit unit "rad". -/
theorem claim_C9_witness :
    AngleUnit.rad ≠ (initState '.' " ").angleUnit ∧
    toggleAngleUnit (initState '.' " ") (some AngleUnit.rad) =
      ({ (initState '.' " ") with angleUnit := AngleUnit.rad },
       [WorkerRequest.configure AngleUnit.rad]) :=
  ⟨by decide, (claim_C9 (initState '.' " ") AngleUnit.rad).2 (by decide)⟩

/-- Claim C10: deleting at an explicit out-of-range index (negative or
at least the expression length) while no Answer is live removes no token
and changes nothing except that a pending Error is cleared and the derived
display state is recomputed. -/
theorem claim_C10 (s : CalcState) (i : Int)
    (hA : answerTruthy s = false)
    (hi : i < 0 ∨ (s.expression.length : Int) ≤ i) :
    (deleteNode s (some i)).expression = s.expression ∧
    (deleteNode s (some i)).history = s.history ∧
    deleteNode s (some i) =
      udpateInputDisplay
        (if jsTruthy s.error then { s with error := none } else s) := by
  have hrange : ¬(0 ≤ i ∧ i < (s.expression.length : Int)) := by omega
  unfold deleteNode
  by_cases he : jsTruthy s.error = true <;>
    refine ⟨?_, ?_, ?_⟩ <;> simp [he, hA, hrange]

/-- Claim C10, witness: the statement evaluated on the one-token state with
the out-of-range index 5. -/
theorem claim_C10_witness :
    answerTruthy oneTokenState = false ∧
    ((5 : Int) < 0 ∨ (oneTokenState.expression.length : Int) ≤ 5) ∧
    ((deleteNode oneTokenState (some 5)).expression =
      oneTokenState.expression ∧
     (deleteNode oneTokenState (some 5)).history = oneTokenState.history ∧
     deleteNode oneTokenState (some 5) =
       udpateInputDisplay
         (if jsTruthy oneTokenState.error then
           { oneTokenState with error := none }
          else oneTokenState)) :=
  ⟨by decide, Or.inr (by decide),
   claim_C10 oneTokenState 5 (by decide) (Or.inr (by decide))⟩

/-- Claim C3, counterexample: in the reachable one-token state ("1"), the
operators-active predicate is true, yet appending an Operator token with
payload ")" (which is not "-") is rejected by the parenthesis guard, so the
rejection is not "exactly when the predicate is false". -/
theorem claim_C3_counterexample :
    operatorsActive oneTokenState = true ∧
    inputNodeOp oneTokenState ")" NodeType.operator none = oneTokenState := by
  constructor
  · decide
  · decide

/-- Claim C3, amended: the operators-active predicate holds exactly when a
live Answer exists, or the Expression is non-empty and its last token's kind
is none of Function, Modifier, Operator and its payload is not "(" (stated
for states whose answer text is not the empty string, which no reachable
state has); and an append of an Operator token whose payload is neither "-"
nor ")" is rejected exactly when the predicate is false (an Operator token
with payload ")" is additionally rejected whenever fewer than one
parenthesis is unclosed). -/
theorem claim_C3_amended (s : CalcState) (exp : String) (d : Option String)
    (h0 : s.answer ≠ some "") (hm : exp ≠ "-") (hp : exp ≠ ")") :
    (operatorsActive s = true ↔ operatorsActiveSpec s) ∧
    (inputNodeOp s exp NodeType.operator d = s ↔
      operatorsActive s = false) := by
  constructor
  · unfold operatorsActive operatorsActiveSpec
    rw [Bool.or_eq_true]
    constructor
    · intro hcond
      cases hcond with
      | inl hansb =>
        left
        cases ha : s.answer with
        | none => exact absurd hansb (by simp [answerTruthy, jsTruthy, ha])
        | some a => simp
      | inr hmatch =>
        cases hl : s.expression.getLast? with
        | none =>
          rw [hl] at hmatch
          exact absurd hmatch (by simp)
        | some l =>
          rw [hl] at hmatch
          right
          have hne : s.expression ≠ [] := fun hx => by
            rw [hx] at hl
            exact Option.noConfusion hl
          simp only [Bool.and_eq_true, Bool.not_eq_true', bne_iff_ne]
            at hmatch
          refine ⟨hne, l, rfl, ?_, ?_, ?_, hmatch.2⟩ <;>
            · intro hty
              rw [hty] at hmatch
              exact absurd hmatch.1 (by decide)
    · intro hspec
      cases hspec with
      | inl hans =>
        left
        cases ha : s.answer with
        | none => exact absurd ha hans
        | some a =>
          have ha2 : a ≠ "" := fun hh => h0 (hh ▸ ha)
          simp [answerTruthy, jsTruthy, ha, ha2]
      | inr hrest =>
        obtain ⟨hne, l, hl, hf, hmo, ho, hel⟩ := hrest
        right
        rw [hl]
        have hmem : l.type ∉ incompatibleTypes := by
          intro hmem2
          simp [incompatibleTypes] at hmem2
          rcases hmem2 with h | h | h
          · exact hf h
          · exact hmo h
          · exact ho h
        simp [hmem, hel]
  · constructor
    · intro heq
      cases hv : operatorsActive s with
      | true =>
        exfalso
        have hAcc : InputAccepted s exp NodeType.operator :=
          ⟨fun h => NodeType.noConfusion h.1,
           fun h => h.2.2 (by simp [hv]),
           fun h => hp h.1⟩
        have hexp : (inputNodeOp s exp NodeType.operator d).expression =
            s.expression := by rw [heq]
        cases hA : answerTruthy s with
        | false =>
          rw [inputNode_noAnswer s exp NodeType.operator d hA hAcc] at hexp
          simp at hexp
        | true =>
          rw [(inputNode_reinject s exp NodeType.operator d hA hAcc
            (Or.inl rfl)).1] at hexp
          simp at hexp
      | false => rfl
    · intro hv
      exact inputNodeOp_rejected s exp NodeType.operator d
        (fun hAcc => hAcc.2.1 ⟨rfl, hm, by simp [hv]⟩)

/-- Claim C3, witness: the amended statement evaluated in the one-token
state for the payload "+" with no display text. -/
theorem claim_C3_witness :
    oneTokenState.answer ≠ some "" ∧ ("+" : String) ≠ "-" ∧
    ("+" : String) ≠ ")" ∧
    ((operatorsActive oneTokenState = true ↔
        operatorsActiveSpec oneTokenState) ∧
     (inputNodeOp oneTokenState "+" NodeType.operator none = oneTokenState ↔
        operatorsActive oneTokenState = false)) :=
  ⟨by decide, by decide, by decide,
   claim_C3_amended oneTokenState "+" none (by decide) (by decide)
     (by decide)⟩

/-- Claim C4, code bug: with the last history entry holding the complex
answer 3+4i (and the live answer fields mirroring it, exactly as after that
evaluation), `insertPreviousAnswer` appends a token whose payload is
"(3+4)" — the imaginary unit is dropped (the template interpolates the raw
imaginary number without an "i" suffix), so the inserted literal does not
denote the previous answer, contradicting both the claimed "re±imi" format
and the method's own documentation. The display text is "Ans" as claimed. -/
theorem claim_C4_code_bug :
    (inputPreviousAnswer complexAnswerState).expression.map
      (fun e => e.element) = ["(3+4)"] ∧
    (inputPreviousAnswer complexAnswerState).expression.map
      (fun e => e.display) = ["Ans"] := by
  constructor
  · decide
  · decide

/-- Claim C5: when a live Answer exists and an append is accepted, then for
an Operator token, or a Modifier token while the Answer has no imaginary
part, the Answer's text is first re-injected as a synthetic Number token
(wrapped in parentheses when it contains a character that is neither a digit
nor a dot) before the new token, and the Answer fields are cleared; for any
other accepted kind the Answer fields are cleared and only the new token is
appended. -/
theorem claim_C5 (s : CalcState) (exp : String) (ty : NodeType)
    (d : Option String) (hA : answerTruthy s = true)
    (hAcc : InputAccepted s exp ty) :
    (if ty = NodeType.operator ∨ (ty = NodeType.modifier ∧ s.answerImg = none)
     then
       (inputNodeOp s exp ty d).expression =
         s.expression ++
           [⟨wrapAnswerText (s.answer.getD ""),
             wrapAnswerText (s.answer.getD ""), NodeType.number⟩,
            ⟨jsDisplayOr d exp, exp, ty⟩]
     else
       (inputNodeOp s exp ty d).expression =
         s.expression ++ [⟨jsDisplayOr d exp, exp, ty⟩]) ∧
    (inputNodeOp s exp ty d).answer = none ∧
    (inputNodeOp s exp ty d).answerReal = none ∧
    (inputNodeOp s exp ty d).answerImg = none ∧
    (inputNodeOp s exp ty d).answerText = "" := by
  by_cases hRe : ty = NodeType.operator ∨
      (ty = NodeType.modifier ∧ s.answerImg = none)
  · obtain ⟨h1, h2, h3, h4, h5, h6⟩ :=
      inputNode_reinject s exp ty d hA hAcc hRe
    rw [if_pos hRe]
    exact ⟨h1, h2, h3, h4, h5⟩
  · have hd := inputNodeOp_discard s exp ty d hA hAcc hRe
    rw [if_neg hRe, hd]
    simp

/-- Claim C5, witness: appending the operator "+" onto the live complex
answer 3+4i re-injects "(3+4i)" as a Number token and clears the answer. -/
theorem claim_C5_witness :
    answerTruthy complexAnswerState = true ∧
    InputAccepted complexAnswerState "+" NodeType.operator ∧
    ((if NodeType.operator = NodeType.operator ∨
        (NodeType.operator = NodeType.modifier ∧
          complexAnswerState.answerImg = none)
      then
        (inputNodeOp complexAnswerState "+" NodeType.operator
          none).expression =
          complexAnswerState.expression ++
            [⟨wrapAnswerText (complexAnswerState.answer.getD ""),
              wrapAnswerText (complexAnswerState.answer.getD ""),
              NodeType.number⟩,
             ⟨jsDisplayOr none "+", "+", NodeType.operator⟩]
      else
        (inputNodeOp complexAnswerState "+" NodeType.operator
          none).expression =
          complexAnswerState.expression ++
            [⟨jsDisplayOr none "+", "+", NodeType.operator⟩]) ∧
     (inputNodeOp complexAnswerState "+" NodeType.operator none).answer =
       none ∧
     (inputNodeOp complexAnswerState "+" NodeType.operator
       none).answerReal = none ∧
     (inputNodeOp complexAnswerState "+" NodeType.operator
       none).answerImg = none ∧
     (inputNodeOp complexAnswerState "+" NodeType.operator
       none).answerText = "") :=
  ⟨by decide, by decide,
   claim_C5 complexAnswerState "+" NodeType.operator none (by decide)
     (by decide)⟩

/-- Helper for claim C6: starting from any state with a falsy answer, the
expression length after a sequence of appends is the starting length plus
the number of accepted calls. -/
theorem runCalls_length (cs : List AppendCall) : ∀ (s : CalcState),
    answerTruthy s = false →
    (runCalls s cs).expression.length =
      s.expression.length + countAccepted s cs := by
  induction cs with
  | nil =>
    intro s hA
    simp [runCalls, countAccepted]
  | cons c cs ih =>
    intro s hA
    by_cases hacc : InputAccepted s c.exp c.ty
    · have hstep := inputNode_noAnswer s c.exp c.ty c.display hA hacc
      have hA2 : answerTruthy (applyCall s c) = false := by
        unfold applyCall
        rw [hstep]
        simpa [answerTruthy] using hA
      have hlen : (applyCall s c).expression.length =
          s.expression.length + 1 := by
        unfold applyCall
        rw [hstep]
        simp
      unfold runCalls countAccepted
      rw [if_pos hacc, ih (applyCall s c) hA2, hlen]
      omega
    · have hstep : applyCall s c = s :=
        inputNodeOp_rejected s c.exp c.ty c.display hacc
      unfold runCalls countAccepted
      rw [if_neg hacc, ih (applyCall s c) (by rw [hstep]; exact hA), hstep]
      omega

/-- Claim C6: for every sequence of append calls from the freshly
constructed (empty, no live answer) component in which each call passes its
activity predicates, the resulting Expression length equals the number of
accepted calls; and every rejected append call leaves the state unchanged
in every field. -/
theorem claim_C6 (dsep : Char) (tsep : String) (cs : List AppendCall)
    (h : AllActivityOk (initState dsep tsep) cs) :
    (runCalls (initState dsep tsep) cs).expression.length =
      countAccepted (initState dsep tsep) cs ∧
    ∀ (s : CalcState) (c : AppendCall), ¬ InputAccepted s c.exp c.ty →
      applyCall s c = s := by
  constructor
  · have hrun := runCalls_length cs (initState dsep tsep) rfl
    simpa [initState] using hrun
  · intro s c hc
    exact inputNodeOp_rejected s c.exp c.ty c.display hc

/-- Claim C6, witness: the sequence "1", "+", ")" from the freshly
constructed component: the third call is rejected by the parenthesis guard,
and the expression ends with 2 tokens for 2 accepted calls. -/
theorem claim_C6_witness :
    AllActivityOk (initState '.' " ") witnessCalls ∧
    ((runCalls (initState '.' " ") witnessCalls).expression.length =
      countAccepted (initState '.' " ") witnessCalls ∧
     ∀ (s : CalcState) (c : AppendCall), ¬ InputAccepted s c.exp c.ty →
       applyCall s c = s) :=
  ⟨by decide, claim_C6 '.' " " witnessCalls (by decide)⟩

end Calc

namespace Worker

/-- Reconfiguration derives every replacement from the saved original
functions `oFns`, never from the current (possibly wrapped) namespace, so
the previously configured namespace is irrelevant. -/
theorem setAngleUnit_ignores_current {V : Type} (ops : ScalarOps V)
    (oFns : MathNS V) (u u2 : WAngleUnit) (math : MathNS V) :
    setAngleUnit ops oFns u (setAngleUnit ops oFns u2 math) =
      setAngleUnit ops oFns u math := by
  funext name
  by_cases h1 : name ∈ fns1
  · cases ho : oFns name <;> simp [setAngleUnit, h1, ho]
  · by_cases h2 : name ∈ fns2
    · cases ho : oFns name <;> simp [setAngleUnit, h1, h2, ho]
    · simp [setAngleUnit, h1, h2]

/-- Claim C8: angle-unit reconfiguration in the worker is idempotent —
issuing the same angle unit twice yields exactly the trigonometric function
namespace of a single configuration, and reconfiguring "rad" then "deg"
twice in a row yields exactly the namespace of a single "deg"
configuration — because every reconfiguration derives the wrapped functions
from the saved original un-wrapped functions `oFns`, never from a
previously wrapped version. -/
theorem claim_C8 {V : Type} (ops : ScalarOps V) (oFns : MathNS V)
    (math : MathNS V) (u : WAngleUnit) :
    setAngleUnit ops oFns u (setAngleUnit ops oFns u math) =
      setAngleUnit ops oFns u math ∧
    setAngleUnit ops oFns WAngleUnit.deg
        (setAngleUnit ops oFns WAngleUnit.rad
          (setAngleUnit ops oFns WAngleUnit.deg
            (setAngleUnit ops oFns WAngleUnit.rad math))) =
      setAngleUnit ops oFns WAngleUnit.deg math :=
  ⟨setAngleUnit_ignores_current ops oFns u u math,
   by rw [setAngleUnit_ignores_current, setAngleUnit_ignores_current,
     setAngleUnit_ignores_current]⟩

end Worker
